import Mathlib

/-!
Verification of the `AIProcessor` transcript analyzer of the
AI-Meeting-Summarizer repository, as a shallow embedding in Lean 4.

JavaScript strings are modelled by Lean `String`.
`String.prototype.split` on the regexes `[.!?]+` and `\s+` is modelled by
`jsSplitPlus` (split on maximal nonempty runs of delimiter characters);
`toLowerCase`, `trim` and `includes` by `jsToLower`, `jsTrim` and
`containsSub`; `Date.now()` by an explicit parameter `now : Nat` (epoch
milliseconds); each evaluation of `Math.floor(Math.random() * 14)` by an
explicit stream `rand : Nat → Fin 14` (the j-th created task reads
`rand j`); `new Date(ms).toISOString().split('T')[0]` by `formatISODate`
(proleptic Gregorian civil-from-days).  The `uuidv4` item ids are random
identifiers carrying no analysis content and are left out of the model.
-/

namespace AIP

/-- Model of JavaScript `String.prototype.toLowerCase` (ASCII letters). -/
def jsToLower (s : String) : String := String.mk (s.data.map Char.toLower)

/-- Decides whether `pat` occurs as a contiguous sublist of `l`; model of
JavaScript `String.prototype.includes` on the character lists. -/
def listContains : List Char → List Char → Bool
  | [], pat => pat.isEmpty
  | c :: t, pat => ((c :: t).take pat.length == pat) || listContains t pat

/-- Model of `s.includes(pat)` for JavaScript strings. -/
def containsSub (s pat : String) : Bool := listContains s.data pat.data

/-- Core of JavaScript `split` on a character-class regex with `+`: a maximal
nonempty run of delimiter characters separates two segments.  `acc` is the
current segment (reversed), `inRun` records whether the previous character was
a delimiter (so further delimiters extend the same separator run). -/
def splitPlusAux (isDelim : Char → Bool) : List Char → List Char → Bool → List (List Char)
  | [], acc, _ => [acc.reverse]
  | c :: cs, acc, inRun =>
    if isDelim c then
      if inRun then splitPlusAux isDelim cs [] true
      else acc.reverse :: splitPlusAux isDelim cs [] true
    else splitPlusAux isDelim cs (c :: acc) false

/-- Model of JavaScript `s.split(re)` where `re` is a character class with `+`. -/
def jsSplitPlus (isDelim : Char → Bool) (s : String) : List String :=
  (splitPlusAux isDelim s.data [] false).map String.mk

/-- The sentence delimiters of the regex `[.!?]+`. -/
def isSentenceDelim (c : Char) : Bool := c == '.' || c == '!' || c == '?'

/-- Model of `transcript.split(/[.!?]+/)` (the raw, unfiltered sentence list). -/
def splitSentencesRaw (t : String) : List String := jsSplitPlus isSentenceDelim t

/-- Model of JavaScript `String.prototype.trim`. -/
def jsTrim (s : String) : String :=
  String.mk ((s.data.dropWhile Char.isWhitespace).reverse.dropWhile Char.isWhitespace).reverse

/-- Model of `transcript.toLowerCase().split(/\s+/)`: the `words` list of
`AIProcessor.analyzeMeeting`. -/
def wordsOf (t : String) : List String := jsSplitPlus Char.isWhitespace (jsToLower t)

/-- Model of `transcript.split(/[.!?]+/).filter(s => s.trim().length > 0)`:
the `sentences` list of `AIProcessor.analyzeMeeting`. -/
def filteredSentences (t : String) : List String :=
  (splitSentencesRaw t).filter (fun s => (jsTrim s).length != 0)

/-- Howard Hinnant's civil-from-days algorithm: day count since 1970-01-01
(nonnegative) to `(year, month, day)` in the proleptic Gregorian calendar. -/
def civilFromDays (z0 : Nat) : Nat × Nat × Nat :=
  let z := z0 + 719468
  let era := z / 146097
  let doe := z % 146097
  let yoe := (doe - doe / 1460 + doe / 36524 - doe / 146097) / 365
  let y := yoe + era * 400
  let doy := doe - (365 * yoe + yoe / 4 - yoe / 100)
  let mp := (5 * doy + 2) / 153
  let d := doy - (153 * mp + 2) / 5 + 1
  let m := if mp < 10 then mp + 3 else mp - 9
  (if m ≤ 2 then y + 1 else y, m, d)

/-- Left-pad a number below 100 to two digits. -/
def pad2 (n : Nat) : String := if n < 10 then "0" ++ toString n else toString n

/-- Left-pad a number to four digits. -/
def pad4 (n : Nat) : String :=
  if n < 10 then "000" ++ toString n
  else if n < 100 then "00" ++ toString n
  else if n < 1000 then "0" ++ toString n
  else toString n

/-- Model of `new Date(ms).toISOString().split('T')[0]` for epoch
milliseconds `ms ≥ 0`: the ISO calendar date `YYYY-MM-DD` of the UTC day
containing `ms`. -/
def formatISODate (ms : Nat) : String :=
  let c := civilFromDays (ms / 86400000)
  pad4 c.1 ++ "-" ++ pad2 c.2.1 ++ "-" ++ pad2 c.2.2

/-- The priority levels of the `types/index.ts` data model. -/
inductive Priority where
  | High
  | Medium
  | Low
deriving DecidableEq, Repr

/-- The task status values of the `types/index.ts` data model. -/
inductive Status where
  | Pending
  | InProgress
  | Completed
deriving DecidableEq, Repr

/-- `ActionItem` of `types/index.ts` (without the random `uuidv4` id). -/
structure ActionItem where
  description : String
  priority : Priority
  category : String
deriving DecidableEq, Repr

/-- `Task` of `types/index.ts` (without the random `uuidv4` id). -/
structure Task where
  description : String
  assignee : String
  dueDate : String
  priority : Priority
  status : Status
deriving DecidableEq, Repr

/-- `MeetingAnalysis` of `types/index.ts`. -/
structure MeetingAnalysis where
  summary : String
  actionItems : List ActionItem
  tasks : List Task
  keyTopics : List String
  nextSteps : List String
deriving DecidableEq, Repr

/-- The `topicKeywords` table of `analyzeMeeting`, in declaration order. -/
def topicTable : List (String × List String) :=
  [("project management", ["project", "timeline", "milestone", "deliverable", "deadline"]),
   ("budget & finance", ["budget", "cost", "expense", "revenue", "financial", "funding"]),
   ("team coordination", ["team", "assign", "responsible", "collaborate", "coordinate"]),
   ("client relations", ["client", "customer", "stakeholder", "presentation", "meeting"]),
   ("technical discussion", ["technical", "development", "implementation", "architecture", "solution"])]

/-- The `keyPhrases` list of `generateSummary`. -/
def keyPhrases : List String :=
  ["discussed", "agreed", "decided", "concluded", "reviewed",
   "presented", "analyzed", "proposed", "suggested", "recommended"]

/-- The `actionKeywords` list of `extractActionItems`. -/
def actionKeywords : List String :=
  ["action", "todo", "follow up", "next step", "need to", "should",
   "must", "required", "implement", "review", "analyze", "prepare", "contact"]

/-- The `taskKeywords` list of `extractTasks`. -/
def taskKeywords : List String :=
  ["assign", "responsible", "owner", "lead", "manage", "handle",
   "complete", "deliver", "finish", "due", "deadline"]

/-- `actionKeywords.some(keyword => sentence.toLowerCase().includes(keyword))`. -/
def actionMatch (s : String) : Bool :=
  actionKeywords.any (fun k => containsSub (jsToLower s) k)

/-- `taskKeywords.some(keyword => sentence.toLowerCase().includes(keyword))`. -/
def taskMatch (s : String) : Bool :=
  taskKeywords.any (fun k => containsSub (jsToLower s) k)

/-- `keyPhrases.some(phrase => sentence.toLowerCase().includes(phrase))`. -/
def keyPhraseMatch (s : String) : Bool :=
  keyPhrases.any (fun p => containsSub (jsToLower s) p)

/-- The priority rule of `extractActionItems`. -/
def actionPriority (s : String) : Priority :=
  let l := jsToLower s
  if containsSub l "urgent" || containsSub l "asap" then Priority.High
  else if containsSub l "important" then Priority.Medium
  else Priority.Low

/-- The category rule of `extractActionItems` (client before budget before
technical before the general default). -/
def actionCategory (s : String) : String :=
  let l := jsToLower s
  if containsSub l "client" then "Client Relations"
  else if containsSub l "budget" then "Budget & Finance"
  else if containsSub l "technical" then "Technical"
  else "General"

/-- The priority rule of `extractTasks` (`critical` instead of `asap`). -/
def taskPriority (s : String) : Priority :=
  let l := jsToLower s
  if containsSub l "urgent" || containsSub l "critical" then Priority.High
  else if containsSub l "important" then Priority.Medium
  else Priority.Low

/-- The action item pushed by `extractActionItems` for a matching sentence. -/
def mkActionItem (s : String) : ActionItem :=
  { description := jsTrim s, priority := actionPriority s, category := actionCategory s }

/-- The two fixed default action items of `extractActionItems`. -/
def defaultActionItems : List ActionItem :=
  [{ description := "Schedule follow-up meeting to review progress"
     priority := Priority.Medium
     category := "General" },
   { description := "Share meeting summary with all stakeholders"
     priority := Priority.Low
     category := "Communication" }]

/-- The in-order list of action items produced by the keyword scan of
`extractActionItems` (before the defaults-substitution and the truncation). -/
def allActionMatches (t : String) : List ActionItem :=
  (splitSentencesRaw t).filterMap (fun s => if actionMatch s then some (mkActionItem s) else none)

/-- Model of `AIProcessor.extractActionItems`. -/
def extractActionItems (t : String) : List ActionItem :=
  (if (allActionMatches t).isEmpty then defaultActionItems else allActionMatches t).take 6

/-- The default assignee roster of `extractTasks`. -/
def defaultAssignees : List String := ["Team Lead", "Project Manager", "Developer", "Analyst"]

/-- `participants.length > 0 ? participants : [default roster]`. -/
def rosterOf (participants : List String) : List String :=
  if participants.length > 0 then participants else defaultAssignees

/-- The task pushed by `extractTasks` for the matching sentence `s` at raw
sentence index `idx`, when `j` matches were pushed before it. -/
def mkTask (assignees : List String) (rand : Nat → Fin 14) (now : Nat)
    (s : String) (idx j : Nat) : Task :=
  { description := jsTrim s
    assignee := assignees.getD (idx % assignees.length) ""
    dueDate := formatISODate (now + ((rand j).val + 1) * 86400000)
    priority := taskPriority s
    status := Status.Pending }

/-- The `sentences.forEach` loop of `extractTasks`: `idx` is the raw sentence
index, `j` the number of tasks pushed so far (hence the next random draw). -/
def extractTasksAux (assignees : List String) (rand : Nat → Fin 14) (now : Nat) :
    List String → Nat → Nat → List Task
  | [], _, _ => []
  | s :: rest, idx, j =>
    if taskMatch s then
      mkTask assignees rand now s idx j :: extractTasksAux assignees rand now rest (idx + 1) (j + 1)
    else extractTasksAux assignees rand now rest (idx + 1) j

/-- The in-order list of tasks produced by the keyword scan of `extractTasks`
(before the defaults-substitution and the truncation). -/
def allTaskMatches (t : String) (participants : List String)
    (rand : Nat → Fin 14) (now : Nat) : List Task :=
  extractTasksAux (rosterOf participants) rand now (splitSentencesRaw t) 0 0

/-- The four fixed default tasks of `extractTasks`: description index `i`
gets due date `now + (i+3)` days, priority `High` for the first and `Medium`
for the rest, assignee `assignees[i % assignees.length]`. -/
def defaultTasks (assignees : List String) (now : Nat) : List Task :=
  [{ description := "Review and finalize project requirements"
     assignee := assignees.getD (0 % assignees.length) ""
     dueDate := formatISODate (now + 3 * 86400000)
     priority := Priority.High
     status := Status.Pending },
   { description := "Prepare client presentation materials"
     assignee := assignees.getD (1 % assignees.length) ""
     dueDate := formatISODate (now + 4 * 86400000)
     priority := Priority.Medium
     status := Status.Pending },
   { description := "Update project timeline and milestones"
     assignee := assignees.getD (2 % assignees.length) ""
     dueDate := formatISODate (now + 5 * 86400000)
     priority := Priority.Medium
     status := Status.Pending },
   { description := "Conduct stakeholder feedback session"
     assignee := assignees.getD (3 % assignees.length) ""
     dueDate := formatISODate (now + 6 * 86400000)
     priority := Priority.Medium
     status := Status.Pending }]

/-- Model of `AIProcessor.extractTasks`. -/
def extractTasks (t : String) (participants : List String)
    (rand : Nat → Fin 14) (now : Nat) : List Task :=
  (if (allTaskMatches t participants rand now).isEmpty
   then defaultTasks (rosterOf participants) now
   else allTaskMatches t participants rand now).take 5

/-- The fixed generic fallback summary of `generateSummary`. -/
def fallbackSummary : String :=
  "Meeting focused on key business discussions and strategic planning. Participants reviewed current progress, discussed upcoming milestones, and aligned on next steps for continued success."

/-- Model of `AIProcessor.generateSummary`, applied to the filtered sentence
list that `analyzeMeeting` passes to it. -/
def generateSummary (sentences : List String) : String :=
  let important := ((sentences.filter keyPhraseMatch).take 4).map jsTrim
  if important.isEmpty then fallbackSummary
  else String.intercalate ". " important ++ "."

/-- The `keyTopics` computation of `analyzeMeeting`: a topic of `topicTable`
is kept when one of its trigger words occurs verbatim in the word list. -/
def keyTopicsOf (t : String) : List String :=
  (topicTable.filter (fun p => p.2.any (fun kw => (wordsOf t).contains kw))).map (fun p => p.1)

/-- The three fixed baseline next steps of `generateNextSteps`. -/
def baselineSteps : List String :=
  ["Distribute meeting summary to all participants",
   "Set up follow-up meetings for high-priority items",
   "Monitor task completion and provide updates"]

/-- The step `unshift`-ed when some action item has priority `High`. -/
def urgentActionStep : String := "Address high-priority action items immediately"

/-- The step `push`-ed when some task has priority `High`. -/
def urgentTaskStep : String := "Ensure high-priority tasks have adequate resources"

/-- Model of `AIProcessor.generateNextSteps`. -/
def generateNextSteps (actionItems : List ActionItem) (tasks : List Task) : List String :=
  let steps := baselineSteps
  let steps2 := if actionItems.any (fun i => i.priority == Priority.High)
                then urgentActionStep :: steps else steps
  if tasks.any (fun k => k.priority == Priority.High) then steps2 ++ [urgentTaskStep] else steps2

/-- Model of `AIProcessor.analyzeMeeting`. -/
def analyzeMeeting (transcript : String) (participants : List String)
    (rand : Nat → Fin 14) (now : Nat) : MeetingAnalysis :=
  let sentences := filteredSentences transcript
  let keyTopics := keyTopicsOf transcript
  let summary := generateSummary sentences
  let actionItems := extractActionItems transcript
  let tasks := extractTasks transcript participants rand now
  let nextSteps := generateNextSteps actionItems tasks
  { summary := summary, actionItems := actionItems, tasks := tasks,
    keyTopics := keyTopics, nextSteps := nextSteps }

/-- The raw sentence indices (positions in `splitSentencesRaw`) at which the
task keyword scan matches, starting the count at `idx`. -/
def matchedIdxsFrom : List String → Nat → List Nat
  | [], _ => []
  | s :: rest, idx =>
    if taskMatch s then idx :: matchedIdxsFrom rest (idx + 1) else matchedIdxsFrom rest (idx + 1)

/-- The raw sentence indices of the task-triggering sentences of `t`. -/
def matchedTaskIdxs (t : String) : List Nat := matchedIdxsFrom (splitSentencesRaw t) 0

/-- The `tasks` field of `analyzeMeeting` is `extractTasks`. -/
theorem analyzeMeeting_tasks (t : String) (p : List String) (rand : Nat → Fin 14) (now : Nat) :
    (analyzeMeeting t p rand now).tasks = extractTasks t p rand now := rfl

/-- The `actionItems` field of `analyzeMeeting` is `extractActionItems`. -/
theorem analyzeMeeting_actionItems (t : String) (p : List String) (rand : Nat → Fin 14) (now : Nat) :
    (analyzeMeeting t p rand now).actionItems = extractActionItems t := rfl

/-- The `summary` field of `analyzeMeeting` is `generateSummary` on the
filtered sentences. -/
theorem analyzeMeeting_summary (t : String) (p : List String) (rand : Nat → Fin 14) (now : Nat) :
    (analyzeMeeting t p rand now).summary = generateSummary (filteredSentences t) := rfl

/-- The `keyTopics` field of `analyzeMeeting` is `keyTopicsOf`. -/
theorem analyzeMeeting_keyTopics (t : String) (p : List String) (rand : Nat → Fin 14) (now : Nat) :
    (analyzeMeeting t p rand now).keyTopics = keyTopicsOf t := rfl

/-- The `nextSteps` field of `analyzeMeeting` is `generateNextSteps` on the
extracted action items and tasks. -/
theorem analyzeMeeting_nextSteps (t : String) (p : List String) (rand : Nat → Fin 14) (now : Nat) :
    (analyzeMeeting t p rand now).nextSteps
      = generateNextSteps (extractActionItems t) (extractTasks t p rand now) := rfl

/-- The assignees of the tasks produced by the scan loop are the roster
entries at the raw sentence indices of the matches, modulo the roster size. -/
theorem extractTasksAux_map_assignee (assignees : List String) (rand : Nat → Fin 14) (now : Nat)
    (ss : List String) : ∀ idx j : Nat,
    (extractTasksAux assignees rand now ss idx j).map (fun k => k.assignee)
      = (matchedIdxsFrom ss idx).map (fun i => assignees.getD (i % assignees.length) "") := by
  induction ss with
  | nil => intro idx j; rfl
  | cons s rest ih =>
    intro idx j
    by_cases h : taskMatch s
    · simp [extractTasksAux, matchedIdxsFrom, h, mkTask, ih]
    · simp [extractTasksAux, matchedIdxsFrom, h, ih]

/-- C2: for every transcript, participant list, random source and clock the
analysis keeps at most 6 action items and at most 5 tasks, and whenever the
keyword scans match at all, the kept items are precisely the first 6 (resp. 5)
matches in sentence order. -/
theorem claim_C2 (t : String) (p : List String) (rand : Nat → Fin 14) (now : Nat) :
    (analyzeMeeting t p rand now).actionItems.length ≤ 6 ∧
    (analyzeMeeting t p rand now).tasks.length ≤ 5 ∧
    (allActionMatches t ≠ [] →
      (analyzeMeeting t p rand now).actionItems = (allActionMatches t).take 6) ∧
    (allTaskMatches t p rand now ≠ [] →
      (analyzeMeeting t p rand now).tasks = (allTaskMatches t p rand now).take 5) := by
  refine ⟨?_, ?_, ?_, ?_⟩
  · rw [analyzeMeeting_actionItems]; exact List.length_take_le 6 _
  · rw [analyzeMeeting_tasks]; exact List.length_take_le 5 _
  · intro h
    rw [analyzeMeeting_actionItems]
    rcases hl : allActionMatches t with _ | ⟨a, l⟩
    · exact absurd hl h
    · simp [extractActionItems, hl]
  · intro h
    rw [analyzeMeeting_tasks]
    rcases hl : allTaskMatches t p rand now with _ | ⟨a, l⟩
    · exact absurd hl h
    · simp [extractTasks, hl]

/-- C2 witness: a transcript with one action match and one task match. -/
theorem claim_C2_witness :
    (analyzeMeeting "review a. assign b" [] (fun _ => (0 : Fin 14)) 0).actionItems.length ≤ 6 ∧
    (analyzeMeeting "review a. assign b" [] (fun _ => (0 : Fin 14)) 0).tasks.length ≤ 5 ∧
    (analyzeMeeting "review a. assign b" [] (fun _ => (0 : Fin 14)) 0).actionItems
      = (allActionMatches "review a. assign b").take 6 ∧
    (analyzeMeeting "review a. assign b" [] (fun _ => (0 : Fin 14)) 0).tasks
      = (allTaskMatches "review a. assign b" [] (fun _ => (0 : Fin 14)) 0).take 5 := by
  obtain ⟨h1, h2, h3, h4⟩ := claim_C2 "review a. assign b" [] (fun _ => (0 : Fin 14)) 0
  exact ⟨h1, h2, h3 (by decide), h4 (by decide)⟩

/-- C4: the next steps are exactly the three fixed baseline steps, with the
fixed urgent-action step prepended precisely when some action item has
priority `High`, and the fixed urgent-task step appended precisely when some
task has priority `High`. -/
theorem claim_C4 (t : String) (p : List String) (rand : Nat → Fin 14) (now : Nat) :
    (analyzeMeeting t p rand now).nextSteps =
      (if (analyzeMeeting t p rand now).actionItems.any (fun i => i.priority == Priority.High)
       then [urgentActionStep] else [])
      ++ baselineSteps
      ++ (if (analyzeMeeting t p rand now).tasks.any (fun k => k.priority == Priority.High)
          then [urgentTaskStep] else []) := by
  rw [analyzeMeeting_nextSteps, analyzeMeeting_actionItems, analyzeMeeting_tasks]
  unfold generateNextSteps
  by_cases h1 : (extractActionItems t).any (fun i => i.priority == Priority.High) <;>
    by_cases h2 : (extractTasks t p rand now).any (fun k => k.priority == Priority.High) <;>
      simp [h1, h2]

/-- C5 counterexample: with participants `["Sarah", "Mike", "Lisa"]` and task
matches exactly at raw sentence positions 0, 2 and 5, the produced assignees
are `roster[0 % 3] = "Sarah"`, `roster[2 % 3] = "Lisa"` and
`roster[5 % 3] = roster[2] = "Lisa"` — not `"Sarah"` as the claim evaluates
its own formula. -/
theorem claim_C5_counterexample :
    matchedTaskIdxs "assign a. b. deliver c. d. e. finish f" = [0, 2, 5] ∧
    (analyzeMeeting "assign a. b. deliver c. d. e. finish f" ["Sarah", "Mike", "Lisa"]
        (fun _ => (0 : Fin 14)) 0).tasks.map (fun k => k.assignee)
      ≠ ["Sarah", "Lisa", "Sarah"] := by
  constructor
  · decide
  · decide

/-- C5 (amended): with participants `["Sarah", "Mike", "Lisa"]` and task
matches exactly at raw sentence positions 0, 2 and 5, the three produced
tasks have assignees `roster[0 % 3], roster[2 % 3], roster[5 % 3]`, i.e.
`Sarah, Lisa, Lisa`. -/
theorem claim_C5 (t : String) (rand : Nat → Fin 14) (now : Nat)
    (h : matchedTaskIdxs t = [0, 2, 5]) :
    (analyzeMeeting t ["Sarah", "Mike", "Lisa"] rand now).tasks.map (fun k => k.assignee)
      = ["Sarah", "Lisa", "Lisa"] := by
  have hmap : (allTaskMatches t ["Sarah", "Mike", "Lisa"] rand now).map (fun k => k.assignee)
      = ["Sarah", "Lisa", "Lisa"] := by
    unfold allTaskMatches
    rw [show rosterOf ["Sarah", "Mike", "Lisa"] = ["Sarah", "Mike", "Lisa"] from rfl,
      extractTasksAux_map_assignee,
      show matchedIdxsFrom (splitSentencesRaw t) 0 = matchedTaskIdxs t from rfl, h]
    rfl
  rw [analyzeMeeting_tasks]
  rcases hl : allTaskMatches t ["Sarah", "Mike", "Lisa"] rand now with _ | ⟨a, l⟩
  · rw [hl] at hmap; simp at hmap
  · have htk : (allTaskMatches t ["Sarah", "Mike", "Lisa"] rand now).take 5
        = allTaskMatches t ["Sarah", "Mike", "Lisa"] rand now := by
      apply List.take_of_length_le
      have := congrArg List.length hmap
      simp at this
      omega
    simp only [extractTasks, hl, List.isEmpty_cons, if_false, Bool.false_eq_true]
    rw [← hl, htk, hmap]

/-- C5 witness: a transcript whose task matches sit at raw positions 0, 2, 5. -/
theorem claim_C5_witness :
    matchedTaskIdxs "assign a. b. deliver c. d. e. finish f" = [0, 2, 5] ∧
    (analyzeMeeting "assign a. b. deliver c. d. e. finish f" ["Sarah", "Mike", "Lisa"]
        (fun _ => (0 : Fin 14)) 0).tasks.map (fun k => k.assignee)
      = ["Sarah", "Lisa", "Lisa"] :=
  ⟨by decide, claim_C5 "assign a. b. deliver c. d. e. finish f"
    (fun _ => (0 : Fin 14)) 0 (by decide)⟩

/-- C6: a sentence that triggers the action-keyword scan and contains,
case-insensitively, both `client` and `budget` yields an action item of
category `Client Relations`: the client check precedes the budget check. -/
theorem claim_C6 (s : String) (h1 : actionMatch s = true)
    (h2 : containsSub (jsToLower s) "client" = true)
    (h3 : containsSub (jsToLower s) "budget" = true) :
    (mkActionItem s).category = "Client Relations" := by
  unfold mkActionItem actionCategory
  simp [h2]

/-- C6 witness: a concrete sentence with an action trigger, `client` and
`budget`. -/
theorem claim_C6_witness :
    actionMatch "Should we discuss the client budget" = true ∧
    containsSub (jsToLower "Should we discuss the client budget") "client" = true ∧
    containsSub (jsToLower "Should we discuss the client budget") "budget" = true ∧
    (mkActionItem "Should we discuss the client budget").category = "Client Relations" :=
  ⟨by decide, by decide, by decide,
    claim_C6 "Should we discuss the client budget" (by decide) (by decide) (by decide)⟩

/-- C7: the summary is the first 4 (nonblank) sentences containing one of the
ten key phrases case-insensitively, trimmed and joined with `". "` plus a
trailing `"."`; when no sentence matches it is the fixed fallback text. -/
theorem claim_C7 (t : String) (p : List String) (rand : Nat → Fin 14) (now : Nat) :
    (analyzeMeeting t p rand now).summary =
      if (filteredSentences t).filter keyPhraseMatch = [] then fallbackSummary
      else String.intercalate ". "
             ((((filteredSentences t).filter keyPhraseMatch).take 4).map jsTrim) ++ "." := by
  rw [analyzeMeeting_summary]
  unfold generateSummary
  rcases hf : (filteredSentences t).filter keyPhraseMatch with _ | ⟨a, l⟩
  · simp
  · simp

/-- A transcript none of whose raw sentences triggers the action, task or
key-phrase scans, and none of whose lower-cased whitespace tokens is a trigger
word of the topic table. -/
def noTriggerTranscript (t : String) : Prop :=
  (∀ s ∈ splitSentencesRaw t,
     actionMatch s = false ∧ taskMatch s = false ∧ keyPhraseMatch s = false) ∧
  (∀ q ∈ topicTable, ∀ kw ∈ q.2, (wordsOf t).contains kw = false)

/-- The scan loop of `extractTasks` produces nothing when no sentence matches. -/
theorem extractTasksAux_eq_nil (assignees : List String) (rand : Nat → Fin 14) (now : Nat)
    (ss : List String) (h : ∀ s ∈ ss, taskMatch s = false) :
    ∀ idx j : Nat, extractTasksAux assignees rand now ss idx j = [] := by
  induction ss with
  | nil => intro idx j; rfl
  | cons s rest ih =>
    intro idx j
    have hs : taskMatch s = false := h s (by simp)
    rw [extractTasksAux, if_neg (by simp [hs])]
    exact ih (fun x hx => h x (by simp [hx])) (idx + 1) j

/-- On a no-trigger transcript, `analyzeMeeting` returns the fixed fallback
record: generic summary, the 2 default action items, the 4 default tasks,
no key topics, and the 3 baseline steps followed by the urgent-task step
(appended because the first default task has priority `High`). -/
theorem analyzeMeeting_noTrigger (t : String) (p : List String) (rand : Nat → Fin 14)
    (now : Nat) (h : noTriggerTranscript t) :
    analyzeMeeting t p rand now =
      { summary := fallbackSummary
        actionItems := defaultActionItems
        tasks := defaultTasks (rosterOf p) now
        keyTopics := []
        nextSteps := baselineSteps ++ [urgentTaskStep] } := by
  obtain ⟨hsent, htop⟩ := h
  have hA : allActionMatches t = [] := by
    unfold allActionMatches
    rw [List.filterMap_eq_nil_iff]
    intro s hs
    simp [(hsent s hs).1]
  have hAI : extractActionItems t = defaultActionItems := by
    simp [extractActionItems, hA]
    decide
  have hTA : allTaskMatches t p rand now = [] :=
    extractTasksAux_eq_nil (rosterOf p) rand now (splitSentencesRaw t)
      (fun s hs => (hsent s hs).2.1) 0 0
  have hTK : extractTasks t p rand now = defaultTasks (rosterOf p) now := by
    unfold extractTasks
    rw [hTA]
    simp only [List.isEmpty_nil, if_true]
    exact List.take_of_length_le (by rw [show (defaultTasks (rosterOf p) now).length = 4 from rfl]; omega)
  have hS : generateSummary (filteredSentences t) = fallbackSummary := by
    have hf : (filteredSentences t).filter keyPhraseMatch = [] := by
      rw [List.filter_eq_nil_iff]
      intro s hs
      have hs2 : s ∈ (splitSentencesRaw t).filter (fun s => (jsTrim s).length != 0) := hs
      have hs' : s ∈ splitSentencesRaw t := List.mem_of_mem_filter hs2
      simp [(hsent s hs').2.2]
    simp [generateSummary, hf]
  have hK : keyTopicsOf t = [] := by
    unfold keyTopicsOf
    have hfil : topicTable.filter (fun q => q.2.any (fun kw => (wordsOf t).contains kw)) = [] := by
      rw [List.filter_eq_nil_iff]
      intro q hq
      simp only [List.any_eq_true, not_exists, not_and]
      intro kw hkw
      simpa using htop q hq kw hkw
    rw [hfil]
    rfl
  have hNS : generateNextSteps defaultActionItems (defaultTasks (rosterOf p) now)
      = baselineSteps ++ [urgentTaskStep] := by
    unfold generateNextSteps
    rw [show (defaultActionItems.any (fun i => i.priority == Priority.High)) = false from rfl,
        show ((defaultTasks (rosterOf p) now).any (fun k => k.priority == Priority.High)) = true
          from rfl]
    simp
  rw [show analyzeMeeting t p rand now =
      ⟨generateSummary (filteredSentences t), extractActionItems t,
       extractTasks t p rand now, keyTopicsOf t,
       generateNextSteps (extractActionItems t) (extractTasks t p rand now)⟩ from rfl]
  rw [hS, hAI, hTK, hK, hNS]

/-- C1 counterexample: `"hello world"` triggers nothing, yet the analysis has
4 next steps (the baseline 3 plus the appended urgent-task step, because the
first default task has priority `High`), not the exact baseline 3 the claim
demands. -/
theorem claim_C1_counterexample :
    noTriggerTranscript "hello world" ∧
    (analyzeMeeting "hello world" [] (fun _ => (0 : Fin 14)) 0).nextSteps ≠ baselineSteps :=
  ⟨by constructor <;> decide, by decide⟩

/-- C1 (amended): on a transcript with no trigger matches at all, the
analysis is exactly the fallback set — 2 default action items, 4 default
tasks, the fixed generic summary, the empty topic list, and the 3 baseline
next steps followed by the appended urgent-task step (the first default task
has priority `High`, so `generateNextSteps` appends it), 4 steps in all. -/
theorem claim_C1 (t : String) (p : List String) (rand : Nat → Fin 14) (now : Nat)
    (h : noTriggerTranscript t) :
    analyzeMeeting t p rand now =
      { summary := fallbackSummary
        actionItems := defaultActionItems
        tasks := defaultTasks (rosterOf p) now
        keyTopics := []
        nextSteps := baselineSteps ++ [urgentTaskStep] } :=
  analyzeMeeting_noTrigger t p rand now h

/-- C1 witness: the no-trigger transcript `"hello world"`. -/
theorem claim_C1_witness :
    noTriggerTranscript "hello world" ∧
    analyzeMeeting "hello world" [] (fun _ => (0 : Fin 14)) 0 =
      { summary := fallbackSummary
        actionItems := defaultActionItems
        tasks := defaultTasks (rosterOf []) 0
        keyTopics := []
        nextSteps := baselineSteps ++ [urgentTaskStep] } :=
  ⟨by constructor <;> decide,
   claim_C1 "hello world" [] (fun _ => (0 : Fin 14)) 0 (by constructor <;> decide)⟩

/-- Appending `"."` to any string yields a nonempty string. -/
theorem append_dot_ne_empty (x : String) : x ++ "." ≠ "" := by
  obtain ⟨xd⟩ := x
  intro hcon
  have h0 : xd ++ ['.'] = ([] : List Char) := congrArg String.data hcon
  simp at h0

/-- `generateSummary` spelled out as the fallback-or-join formula. -/
theorem generateSummary_eq (sentences : List String) :
    generateSummary sentences =
      if sentences.filter keyPhraseMatch = [] then fallbackSummary
      else String.intercalate ". " (((sentences.filter keyPhraseMatch).take 4).map jsTrim)
             ++ "." := by
  unfold generateSummary
  rcases hf : sentences.filter keyPhraseMatch with _ | ⟨a, l⟩
  · simp
  · simp

/-- The summary is never the empty string. -/
theorem generateSummary_ne_empty (sentences : List String) : generateSummary sentences ≠ "" := by
  rw [generateSummary_eq]
  by_cases hf : sentences.filter keyPhraseMatch = []
  · rw [if_pos hf]; decide
  · rw [if_neg hf]; exact append_dot_ne_empty _

/-- Taking a positive number of elements of a nonempty list is nonempty. -/
theorem take_ne_nil_of_ne_nil {α : Type} (l : List α) (n : Nat) (hn : n ≠ 0) (h : l ≠ []) :
    l.take n ≠ [] := by
  rcases l with _ | ⟨a, l⟩
  · exact absurd rfl h
  · rcases n with _ | n
    · exact absurd rfl hn
    · simp

/-- The extracted action item list is never empty (defaults are substituted). -/
theorem extractActionItems_ne_nil (t : String) : extractActionItems t ≠ [] := by
  unfold extractActionItems
  apply take_ne_nil_of_ne_nil _ 6 (by omega)
  by_cases h : (allActionMatches t).isEmpty
  · rw [if_pos h]; decide
  · rw [if_neg h]
    intro hc
    rw [hc] at h
    simp at h

/-- The extracted task list is never empty (defaults are substituted). -/
theorem extractTasks_ne_nil (t : String) (p : List String) (rand : Nat → Fin 14) (now : Nat) :
    extractTasks t p rand now ≠ [] := by
  unfold extractTasks
  apply take_ne_nil_of_ne_nil _ 5 (by omega)
  by_cases h : (allTaskMatches t p rand now).isEmpty
  · rw [if_pos h]; simp [defaultTasks]
  · rw [if_neg h]
    intro hc
    rw [hc] at h
    simp at h

/-- The next steps list is never empty (it always contains the baseline). -/
theorem generateNextSteps_ne_nil (ai : List ActionItem) (ts : List Task) :
    generateNextSteps ai ts ≠ [] := by
  unfold generateNextSteps
  by_cases h1 : ai.any (fun i => i.priority == Priority.High) <;>
    by_cases h2 : ts.any (fun k => k.priority == Priority.High) <;>
      simp [h1, h2, baselineSteps]

/-- C3: the analyzer is total — it is a plain function of its four inputs —
and for every transcript and participant list every sub-field of the result
is populated: the summary is a nonempty string and the action item, task and
next step lists are nonempty; for the empty transcript the result is exactly
the fallback record. -/
theorem claim_C3 :
    (∀ (t : String) (p : List String) (rand : Nat → Fin 14) (now : Nat),
       (analyzeMeeting t p rand now).summary ≠ "" ∧
       (analyzeMeeting t p rand now).actionItems ≠ [] ∧
       (analyzeMeeting t p rand now).tasks ≠ [] ∧
       (analyzeMeeting t p rand now).nextSteps ≠ []) ∧
    (∀ (p : List String) (rand : Nat → Fin 14) (now : Nat),
       analyzeMeeting "" p rand now =
         { summary := fallbackSummary
           actionItems := defaultActionItems
           tasks := defaultTasks (rosterOf p) now
           keyTopics := []
           nextSteps := baselineSteps ++ [urgentTaskStep] }) := by
  constructor
  · intro t p rand now
    refine ⟨?_, ?_, ?_, ?_⟩
    · rw [analyzeMeeting_summary]; exact generateSummary_ne_empty _
    · rw [analyzeMeeting_actionItems]; exact extractActionItems_ne_nil t
    · rw [analyzeMeeting_tasks]; exact extractTasks_ne_nil t p rand now
    · rw [analyzeMeeting_nextSteps]; exact generateNextSteps_ne_nil _ _
  · intro p rand now
    exact analyzeMeeting_noTrigger "" p rand now ⟨by decide, by decide⟩

/-- The random-independent content of a task: everything but the due date. -/
def taskKernel (k : Task) : String × String × Priority × Status :=
  (k.description, k.assignee, k.priority, k.status)

/-- The scan loop of `extractTasks` is random-independent except for the due
dates: its tasks agree through `taskKernel` for any two random sources. -/
theorem extractTasksAux_map_kernel (assignees : List String) (rand1 rand2 : Nat → Fin 14)
    (now : Nat) (ss : List String) : ∀ idx j : Nat,
    (extractTasksAux assignees rand1 now ss idx j).map taskKernel
      = (extractTasksAux assignees rand2 now ss idx j).map taskKernel := by
  induction ss with
  | nil => intro idx j; rfl
  | cons s rest ih =>
    intro idx j
    by_cases h : taskMatch s
    · simp [extractTasksAux, h, mkTask, taskKernel, ih]
    · simp [extractTasksAux, h, ih]

/-- `extractTasks` is random-independent except for the due dates. -/
theorem extractTasks_map_kernel (t : String) (p : List String) (rand1 rand2 : Nat → Fin 14)
    (now : Nat) :
    (extractTasks t p rand1 now).map taskKernel = (extractTasks t p rand2 now).map taskKernel := by
  have hk := extractTasksAux_map_kernel (rosterOf p) rand1 rand2 now (splitSentencesRaw t) 0 0
  unfold extractTasks allTaskMatches
  by_cases h : (extractTasksAux (rosterOf p) rand1 now (splitSentencesRaw t) 0 0).isEmpty
  · have h1 : extractTasksAux (rosterOf p) rand1 now (splitSentencesRaw t) 0 0 = [] :=
      List.isEmpty_iff.mp h
    have h2 : extractTasksAux (rosterOf p) rand2 now (splitSentencesRaw t) 0 0 = [] := by
      rw [h1] at hk
      exact List.map_eq_nil_iff.mp hk.symm
    rw [if_pos h, if_pos (by rw [h2]; exact List.isEmpty_nil)]
  · have h2 : ¬(extractTasksAux (rosterOf p) rand2 now (splitSentencesRaw t) 0 0).isEmpty := by
      intro hcon
      have h2' : extractTasksAux (rosterOf p) rand2 now (splitSentencesRaw t) 0 0 = [] :=
        List.isEmpty_iff.mp hcon
      rw [h2'] at hk
      exact h (by rw [List.map_eq_nil_iff.mp hk]; exact List.isEmpty_nil)
    rw [if_neg h, if_neg h2, List.map_take, List.map_take, hk]

/-- C8: two runs on the same transcript and participants with the same clock
agree on every field except the randomized task due dates: summary, action
items, key topics and next steps are equal, and the task lists agree on
description, assignee, priority and status (`taskKernel`) pointwise. -/
theorem claim_C8 (t : String) (p : List String) (rand1 rand2 : Nat → Fin 14) (now : Nat) :
    (analyzeMeeting t p rand1 now).summary = (analyzeMeeting t p rand2 now).summary ∧
    (analyzeMeeting t p rand1 now).actionItems = (analyzeMeeting t p rand2 now).actionItems ∧
    (analyzeMeeting t p rand1 now).keyTopics = (analyzeMeeting t p rand2 now).keyTopics ∧
    (analyzeMeeting t p rand1 now).nextSteps = (analyzeMeeting t p rand2 now).nextSteps ∧
    (analyzeMeeting t p rand1 now).tasks.map taskKernel
      = (analyzeMeeting t p rand2 now).tasks.map taskKernel := by
  have htasks := extractTasks_map_kernel t p rand1 rand2 now
  refine ⟨rfl, rfl, rfl, ?_, htasks⟩
  rw [analyzeMeeting_nextSteps, analyzeMeeting_nextSteps]
  unfold generateNextSteps
  have hrw : ∀ l : List Task, l.any (fun k => k.priority == Priority.High)
      = (l.map taskKernel).any (fun q => q.2.2.1 == Priority.High) := by
    intro l
    induction l with
    | nil => rfl
    | cons a l ih => simp [taskKernel, ih]
  have hany : (extractTasks t p rand1 now).any (fun k => k.priority == Priority.High)
      = (extractTasks t p rand2 now).any (fun k => k.priority == Priority.High) := by
    rw [hrw, htasks, ← hrw]
  rw [hany]

/-- Every task the scan loop produces is due a whole number of days `d` with
`1 ≤ d ≤ 14` after `now`, formatted by `formatISODate`. -/
theorem extractTasksAux_dueDate (assignees : List String) (rand : Nat → Fin 14) (now : Nat)
    (ss : List String) : ∀ (idx j : Nat) (k : Task),
    k ∈ extractTasksAux assignees rand now ss idx j →
    ∃ d, 1 ≤ d ∧ d ≤ 14 ∧ k.dueDate = formatISODate (now + d * 86400000) := by
  induction ss with
  | nil => intro idx j k hk; simp [extractTasksAux] at hk
  | cons s rest ih =>
    intro idx j k hk
    by_cases h : taskMatch s
    · simp only [extractTasksAux] at hk
      rw [if_pos h] at hk
      rcases List.mem_cons.mp hk with hk1 | hk2
      · refine ⟨(rand j).val + 1, by omega, ?_, ?_⟩
        · have := (rand j).isLt; omega
        · rw [hk1]; rfl
      · exact ih (idx + 1) (j + 1) k hk2
    · simp only [extractTasksAux] at hk
      rw [if_neg h] at hk
      exact ih (idx + 1) j k hk

/-- Every default task is due a whole number of days `d` with `1 ≤ d ≤ 14`
after `now` (the offsets are 3, 4, 5 and 6 days). -/
theorem defaultTasks_dueDate (assignees : List String) (now : Nat) (k : Task)
    (hk : k ∈ defaultTasks assignees now) :
    ∃ d, 1 ≤ d ∧ d ≤ 14 ∧ k.dueDate = formatISODate (now + d * 86400000) := by
  simp only [defaultTasks, List.mem_cons, List.not_mem_nil, or_false] at hk
  rcases hk with hk | hk | hk | hk
  · exact ⟨3, by omega, by omega, by rw [hk]⟩
  · exact ⟨4, by omega, by omega, by rw [hk]⟩
  · exact ⟨5, by omega, by omega, by rw [hk]⟩
  · exact ⟨6, by omega, by omega, by rw [hk]⟩

/-- C9: every task of every analysis (matched or default) has a due date that
is the current time plus a whole number of days `d` with `1 ≤ d ≤ 14`,
rendered as an ISO calendar date by `formatISODate`. -/
theorem claim_C9 (t : String) (p : List String) (rand : Nat → Fin 14) (now : Nat) (k : Task)
    (hk : k ∈ (analyzeMeeting t p rand now).tasks) :
    ∃ d, 1 ≤ d ∧ d ≤ 14 ∧ k.dueDate = formatISODate (now + d * 86400000) := by
  rw [analyzeMeeting_tasks] at hk
  unfold extractTasks at hk
  have hk' := List.take_subset 5 _ hk
  by_cases h : (allTaskMatches t p rand now).isEmpty
  · rw [if_pos h] at hk'
    exact defaultTasks_dueDate (rosterOf p) now k hk'
  · rw [if_neg h] at hk'
    exact extractTasksAux_dueDate (rosterOf p) rand now (splitSentencesRaw t) 0 0 k hk'

/-- C9 witness: the single task extracted from `"assign x"` at time 0. -/
theorem claim_C9_witness :
    ∃ d, 1 ≤ d ∧ d ≤ 14 ∧
      ((analyzeMeeting "assign x" [] (fun _ => (0 : Fin 14)) 0).tasks.getD 0
        { description := "", assignee := "", dueDate := "", priority := Priority.Low,
          status := Status.Pending }).dueDate = formatISODate (0 + d * 86400000) :=
  claim_C9 "assign x" [] (fun _ => (0 : Fin 14)) 0 _ (by decide)

/-- Lower-casing fixes the four whitespace characters. -/
theorem toLower_whitespace (c : Char) (h : c.isWhitespace = true) : c.toLower = c := by
  have h' : ((c = ' ' ∨ c = '\t') ∨ c = '\r') ∨ c = '\n' := by
    simpa [Char.isWhitespace] using h
  rcases h' with ((h | h) | h) | h <;> subst h <;> decide

/-- A substring occurrence puts every character of the pattern in the text. -/
theorem listContains_subset (l : List Char) : ∀ pat : List Char,
    listContains l pat = true → ∀ c ∈ pat, c ∈ l := by
  induction l with
  | nil =>
    intro pat h c hc
    have hnil : pat = [] := List.isEmpty_iff.mp (by simpa [listContains] using h)
    subst hnil
    simp at hc
  | cons a t ih =>
    intro pat h c hc
    simp only [listContains, Bool.or_eq_true] at h
    rcases h with h1 | h2
    · have hp : (a :: t).take pat.length = pat := eq_of_beq h1
      rw [← hp] at hc
      exact List.take_subset _ _ hc
    · exact List.mem_cons_of_mem a (ih pat h2 c hc)

/-- A string whose JavaScript trim is empty consists of whitespace only. -/
theorem blank_all_whitespace (s : String) (h : jsTrim s = "") :
    ∀ c ∈ s.data, c.isWhitespace = true := by
  have h0 : ((s.data.dropWhile Char.isWhitespace).reverse.dropWhile Char.isWhitespace).reverse
      = ([] : List Char) := congrArg String.data h
  rw [List.reverse_eq_nil_iff, List.dropWhile_eq_nil_iff] at h0
  intro c hc
  have hc2 : c ∈ s.data.takeWhile Char.isWhitespace ++ s.data.dropWhile Char.isWhitespace := by
    rw [List.takeWhile_append_dropWhile]
    exact hc
  rcases List.mem_append.mp hc2 with hcase | hcase
  · exact List.mem_takeWhile_imp hcase
  · exact h0 c (List.mem_reverse.mpr hcase)

/-- A whitespace-only sentence contains no keyword having a non-whitespace
character. -/
theorem blank_no_keyword (s : String) (hall : ∀ c ∈ s.data, c.isWhitespace = true)
    (k : String) (hk : k.data.any (fun c => !c.isWhitespace) = true) :
    containsSub (jsToLower s) k = false := by
  by_contra hcon
  have hcon' : containsSub (jsToLower s) k = true := by
    cases hb : containsSub (jsToLower s) k
    · exact absurd hb hcon
    · rfl
  have hsub := listContains_subset (jsToLower s).data k.data hcon'
  rcases List.any_eq_true.mp hk with ⟨c, hc1, hc2⟩
  have hcmem : c ∈ s.data.map Char.toLower := hsub c hc1
  rcases List.mem_map.mp hcmem with ⟨c0, hc0, hlow⟩
  have hws0 := hall c0 hc0
  rw [toLower_whitespace c0 hws0] at hlow
  subst hlow
  rw [hws0] at hc2
  simp at hc2

/-- A sentence that the nonblank filter would drop never triggers the task
keyword scan. -/
theorem taskMatch_of_blank (s : String) (h : jsTrim s = "") : taskMatch s = false := by
  have hall := blank_all_whitespace s h
  unfold taskMatch
  rw [List.any_eq_false]
  intro k hk
  have hkw : k.data.any (fun c => !c.isWhitespace) = true := by fin_cases hk <;> decide
  simp [blank_no_keyword s hall k hkw]

/-- C10: the round-robin index of task extraction is the sentence position in
the raw split on `[.!?]+` (which keeps empty segments), while the sentence
list used elsewhere in `analyzeMeeting` filters blank segments out: blank
segments never yield a task yet occupy index positions, shifting the assignee
of later matched sentences.  In the example the only matched sentence sits at
raw index 1 (after the empty leading segment) and gets roster entry 1
(`Mike`), not the entry 0 (`Sarah`) its position among the nonblank sentences
would give; trailing punctuation likewise produces an empty raw segment. -/
theorem claim_C10 :
    (∀ s : String, jsTrim s = "" → taskMatch s = false) ∧
    (∀ (t : String) (p : List String) (rand : Nat → Fin 14) (now : Nat),
       (allTaskMatches t p rand now).map (fun k => k.assignee)
         = (matchedTaskIdxs t).map
             (fun i => (rosterOf p).getD (i % (rosterOf p).length) "")) ∧
    "" ∈ splitSentencesRaw ". assign the report" ∧
    "" ∉ filteredSentences ". assign the report" ∧
    "" ∈ splitSentencesRaw "assign the report." ∧
    filteredSentences ". assign the report" = [" assign the report"] ∧
    (analyzeMeeting ". assign the report" ["Sarah", "Mike"] (fun _ => (0 : Fin 14)) 0).tasks.map
        (fun k => k.assignee) = ["Mike"] ∧
    ["Sarah", "Mike"].getD 0 "" = "Sarah" := by
  refine ⟨taskMatch_of_blank, ?_, by decide, by decide, by decide, by decide, by decide,
    by decide⟩
  intro t p rand now
  exact extractTasksAux_map_assignee (rosterOf p) rand now (splitSentencesRaw t) 0 0

/-- C10 witness: a whitespace-only sentence triggers no task keyword. -/
theorem claim_C10_witness : taskMatch "   " = false :=
  claim_C10.1 "   " (by decide)

end AIP
